import Mathlib

/- Verification development for the pumpfun-telegram-bot repository
   (src/index.js).  The source file contains three program variants:
   a minimal polling bot (variant 1, lines 1-88), a polling bot with
   Moralis and Helius fallbacks (variant 2, lines 128-625) and a Helius
   webhook scanner (variant 3, lines 626-1060).  JavaScript null and
   undefined are modelled as Option, JavaScript BigInt as Int (BigInt
   division truncates toward zero, Int.tdiv), JavaScript numbers as
   rationals, and every external call (Redis, Moralis, Helius, Telegram)
   is modelled by passing its result in as an argument. -/

namespace PumpBot

/-- The percentage helper percentBigInt of variant 3 (src/index.js lines
861-872).  JavaScript BigInt arithmetic is exact integer arithmetic and
BigInt division truncates toward zero, hence Int.tdiv.  The final source
expression Number(scaled) / 100 is modelled as exact division in the
rationals.  A zero denominator returns the number 0, not an absent value. -/
def percentBigInt (numer denom : Int) : ℚ :=
  if denom = 0 then 0 else ((Int.tdiv (numer * 10000) denom : Int) : ℚ) / 100

/-- The scaled integer that percentBigInt computes before its final
Number(scaled) / 100 conversion (line 867): the BigInt expression
(n * 10000n) / d, exact arbitrary-precision arithmetic whose division
truncates toward zero.  The zero-denominator guard mirrors line 865.
Unlike the returned value, this integer involves no floating point. -/
def percentScaled (numer denom : Int) : Int :=
  if denom = 0 then 0 else Int.tdiv (numer * 10000) denom

/-- Rounding to four decimal places as performed by Number(pct.toFixed(4))
(line 269) on the non-negative shares arising there: round half up at the
fourth decimal.  The binary-double representation error of the JavaScript
float is not modelled; the decimal rounding alone already separates this
computation from the two-decimal truncation contract. -/
def toFixed4 (x : ℚ) : ℚ := (⌊x * 10000 + 1/2⌋ : ℚ) / 10000

/-- The share computation of variant-2 computeTop10PercentViaHelius
(lines 257-269): null for a falsy supply, otherwise
pct = (sumTop / supply) * 100 computed in JavaScript floating point and
rounded to four decimal places.  The float arithmetic is modelled as exact
rational arithmetic followed by the four-decimal rounding. -/
def top10PercentViaHelius (sumTop supply : ℚ) : Option ℚ :=
  if supply = 0 then none else some (toFixed4 (sumTop / supply * 100))

/-- The sharePercent contract exactly as the specification words it
(spec section 4.2): absent for total ≤ 0, otherwise
floor(amount * 10000 / total) / 100.  This definition follows the spec, not
the source; it exists only to compare percentBigInt against the contract. -/
def sharePercentSpec (amount total : Int) : Option ℚ :=
  if total ≤ 0 then none
  else some ((⌊((amount : ℚ) * 10000) / (total : ℚ)⌋ : ℚ) / 100)

/-- JavaScript toLowerCase as used on addresses, the character-wise
lowering of the string (this is what String.toLower computes; the map is
taken over the character list so that it evaluates definitionally). -/
def jsToLower (s : String) : String := ⟨s.data.map Char.toLower⟩

/-- JavaScript truthiness for an optional string: undefined, null and the
empty string are falsy. -/
def truthyStr (o : Option String) : Option String :=
  match o with
  | some s => if s = "" then none else some s
  | none => none

/-- JavaScript x or-else null on an optional number, as in lines 976-977 of
the source: 0 is falsy and collapses to null. -/
def orNullQ (o : Option ℚ) : Option ℚ :=
  match o with
  | some v => if v = 0 then none else some v
  | none => none

/-- JavaScript falsiness of an optional number: undefined, null and 0 are
falsy. -/
def jsFalsyQ (o : Option ℚ) : Bool :=
  match o with
  | some v => decide (v = 0)
  | none => true

/-- In-memory branch of markProcessed (src/index.js lines 193-197): the map
inMemoryProcessed is modelled as a list of key and insertion-time pairs; the
entry is created only when the key is not present, and the Bool reports
whether creation happened. -/
def markProcessedMem (mem : List (String × Nat)) (address : String) (now : Nat) :
    Bool × List (String × Nat) :=
  let key := "processed:" ++ address
  if mem.any (fun e => e.1 == key) then (false, mem)
  else (true, (key, now) :: mem)

/-- Redis branch of markProcessed (lines 183-192).  The SET key NX EX call
is external: its result is ok true when the key was created, ok false when
it already existed, and error when Redis is unavailable.  On error the code
logs and reports failure.  Result components: claim succeeded, an error was
logged. -/
def markProcessedRedis (setResult : Except String Bool) : Bool × Bool :=
  match setResult with
  | .ok created => (created, false)
  | .error _ => (false, true)

/-- In-memory branch of wasProcessed (lines 210-212). -/
def wasProcessedMem (mem : List (String × Nat)) (address : String) : Bool :=
  mem.any (fun e => e.1 == "processed:" ++ address)

/-- Redis branch of wasProcessed (lines 202-209): a stored value that is
neither null nor undefined counts as processed; a Redis error is logged and
the token is treated as NOT processed (fail-open).  Result components:
processed, an error was logged. -/
def wasProcessedRedis (read : Except String (Option String)) : Bool × Bool :=
  match read with
  | .ok v => (v.isSome, false)
  | .error _ => (false, true)

/-- The periodic in-memory expiry sweep (lines 216-222): an entry is deleted
exactly when now minus its insertion time exceeds the TTL. -/
def sweepMem (ttl now : Nat) (mem : List (String × Nat)) : List (String × Nat) :=
  mem.filter (fun e => !(decide (now - e.2 > ttl)))

/-- A token as read by the variant-1 polling loop (lines 52-74).  Absent
(undefined) fields are none. -/
structure Tok1 where
  address : String
  marketcap : Option ℚ
  holders : Option ℚ
  top10_holders_pct : Option ℚ
  dev_hold_pct : Option ℚ
  volume_24h : Option ℚ

/-- JavaScript comparison x < c where x may be undefined: comparing
undefined produces NaN and every NaN comparison is false, so an absent
field never fires the skip condition. -/
def jsLt (o : Option ℚ) (c : ℚ) : Bool :=
  match o with
  | some v => decide (v < c)
  | none => false

/-- JavaScript comparison x > c where x may be undefined, as jsLt. -/
def jsGt (o : Option ℚ) (c : ℚ) : Bool :=
  match o with
  | some v => decide (v > c)
  | none => false

/-- The variant-1 filter (lines 59-63): the token survives when none of the
five skip conditions fires.  The volume condition is the only one that
fires on an absent field, because the source tests falsiness there. -/
def filter1pass (t : Tok1) : Bool :=
  !(jsLt t.marketcap 15000) && !(jsLt t.holders 30) &&
  !(jsGt t.top10_holders_pct 20) && !(jsGt t.dev_hold_pct 3) &&
  (match t.volume_24h with
   | some v => decide (0 < v)
   | none => false)

/-- State of the variant-1 polling loop: the dedupe keys written through
redis.set, a ghost list of keys whose evaluation ran (got past the dedupe
check), and the addresses sent to Telegram. -/
structure P1State where
  seen : List String
  evaluated : List String
  sent : List String

/-- One iteration of the variant-1 polling loop body (lines 52-74): an
unseen token is marked seen (redis.set with TTL 3600) BEFORE its filters
run; the evaluated component is ghost instrumentation recording that the
filter ran for this key. -/
def pollStep1 (st : P1State) (t : Tok1) : P1State :=
  let key := "seen:" ++ t.address
  if st.seen.contains key then st
  else
    let st1 : P1State :=
      { seen := key :: st.seen
        evaluated := st.evaluated ++ [key]
        sent := st.sent }
    if filter1pass t then { st1 with sent := st1.sent ++ [t.address] } else st1

/-- The variant-1 polling loop over one batch (lines 52-75), sequential. -/
def pollOnce1 (batch : List Tok1) (st : P1State) : P1State :=
  batch.foldl pollStep1 st

/-- A PumpFun token object as read by variant-2 processToken (lines
388-407): every field the code consults, absent modelled as none. -/
structure Token2 where
  address : Option String
  mint : Option String
  token : Option String
  marketcap : Option ℚ
  mc : Option ℚ
  holders : Option ℚ
  holder_count : Option ℚ
  top10_percent : Option ℚ
  top10 : Option ℚ
  dev_hold : Option ℚ
  dev_hold_percent : Option ℚ
  creator_hold : Option ℚ
  volume_24h : Option ℚ
  volume : Option ℚ
  creator : Option String
  dev : Option String

/-- Line 390 and the guard of lines 391-394: the canonical address is the
first truthy one of address, mint, token, with JavaScript string falsiness
(an empty string counts as missing). -/
def tokenAddress (t : Token2) : Option String :=
  (truthyStr t.address).orElse
    (fun _ => (truthyStr t.mint).orElse (fun _ => truthyStr t.token))

/-- Results of the external metric lookups available to variant-2
processToken.  Each field holds the value the corresponding helper call
would return, none when the helper fails or has no data. -/
structure Env2 where
  moralisKey : Bool
  heliusUrl : Bool
  moralisHolders : Option ℚ
  moralisMarketCap : Option ℚ
  moralisVolume24h : Option ℚ
  moralisPriceOk : Bool
  heliusTop10 : Option ℚ
  heliusDev : Option ℚ

/-- The resolved metrics bundle of variant-2 processToken. -/
structure Metrics where
  marketcap : Option ℚ
  holders : Option ℚ
  top10Percent : Option ℚ
  devPercent : Option ℚ
  volume24h : Option ℚ

/-- Metric resolution of variant-2 processToken (lines 402-446): read the
duck-typed token fields (the source uses nullish coalescing, which keeps a
present 0), then fill still-missing metrics from Moralis and Helius where
configured.  Lines 421-422 test JavaScript falsiness, so a present 0
marketcap or volume is also replaced by provider data there. -/
def resolveMetrics (env : Env2) (t : Token2) : Metrics :=
  let marketcap0 := t.marketcap.or t.mc
  let holders0 := t.holders.or t.holder_count
  let top10_0 := t.top10_percent.or t.top10
  let dev0 := (t.dev_hold.or t.dev_hold_percent).or t.creator_hold
  let vol0 := t.volume_24h.or t.volume
  let holders1 := if holders0.isNone && env.moralisKey then env.moralisHolders else holders0
  let needPrice := (marketcap0.isNone || vol0.isNone) && env.moralisKey
  let marketcap1 :=
    if needPrice && env.moralisPriceOk && jsFalsyQ marketcap0 && env.moralisMarketCap.isSome
    then env.moralisMarketCap else marketcap0
  let vol1 :=
    if needPrice && env.moralisPriceOk && jsFalsyQ vol0 && env.moralisVolume24h.isSome
    then env.moralisVolume24h else vol0
  let top10_1 := if top10_0.isNone && env.heliusUrl then env.heliusTop10 else top10_0
  let dev1 := if dev0.isNone && env.heliusUrl then env.heliusDev else dev0
  { marketcap := marketcap1
    holders := holders1
    top10Percent := top10_1
    devPercent := dev1
    volume24h := vol1 }

/-- The filter thresholds of variant 2 (lines 155-158), configurable
through the environment. -/
structure FilterCfg where
  MIN_MARKETCAP : ℚ
  MIN_HOLDERS : ℚ
  MAX_TOP10_PERCENT : ℚ
  MAX_DEV_PERCENT : ℚ

/-- The default thresholds of lines 155-158. -/
def defaultCfg : FilterCfg := ⟨15000, 30, 20, 3⟩

/-- The variant-2 filter (lines 462-469): a null metric makes its conjunct
false.  The volume conjunct tests only presence, never positivity. -/
def passedFilter (cfg : FilterCfg) (m : Metrics) : Bool :=
  (match m.marketcap with | some v => decide (cfg.MIN_MARKETCAP ≤ v) | none => false) &&
  (match m.holders with | some v => decide (cfg.MIN_HOLDERS ≤ v) | none => false) &&
  (match m.top10Percent with | some v => decide (v < cfg.MAX_TOP10_PERCENT) | none => false) &&
  (match m.devPercent with | some v => decide (v < cfg.MAX_DEV_PERCENT) | none => false) &&
  m.volume24h.isSome

/-- Pipeline state for variant-2 processToken running with the in-memory
ledger: the dedupe map and the record of Telegram send attempts as pairs of
address and delivery outcome. -/
structure PState2 where
  ledger : List (String × Nat)
  sent : List (String × Bool)

/-- Variant-2 processToken (lines 388-485) on the in-memory ledger branch.
deliveryOk is the outcome of the external Telegram call; sendTelegramMessage
(lines 344-359) catches its own errors, so that outcome does not influence
control flow and is only recorded in the send log.  After a passing filter
the processed mark is written unconditionally (lines 471-476); after a
failing filter it is written exactly when marketcap and holders are both
non-null (lines 479-482). -/
def processToken2 (cfg : FilterCfg) (env : Env2) (deliveryOk : Bool) (now : Nat)
    (t : Token2) (st : PState2) : PState2 :=
  match tokenAddress t with
  | none => st
  | some address =>
    if wasProcessedMem st.ledger address then st
    else
      let m := resolveMetrics env t
      if passedFilter cfg m then
        { ledger := (markProcessedMem st.ledger address now).2
          sent := st.sent ++ [(address, deliveryOk)] }
      else
        if m.marketcap.isSome && m.holders.isSome then
          { st with ledger := (markProcessedMem st.ledger address now).2 }
        else st

/-- A holder record as used by variant-3 processTokenEvent: the address
string (empty when the field is missing) and the raw base-unit balance,
already parsed from its BigInt string with missing balances read as 0. -/
structure HolderE where
  address : String
  balance : Int
deriving DecidableEq, Repr

/-- The dev and creator share computation of variant-3 processTokenEvent
(lines 947-969): with a creator, look it up case-insensitively in the
holders list and take its share, 0 when it is absent from the list; with no
creator, take the first (largest) holder as the probable dev. -/
def devPercentOf (creator : Option String) (holdersList : List HolderE)
    (total : Int) : ℚ :=
  match creator with
  | some c =>
    match holdersList.find? (fun h => jsToLower h.address == jsToLower c) with
    | some found => percentBigInt found.balance total
    | none => 0
  | none =>
    match holdersList.head? with
    | some probableDev => percentBigInt probableDev.balance total
    | none => 0

/-- Modelled from the spec (section 4.2 devPercent rule): a known and
present creator gives the creator share, OTHERWISE the single largest
holder is the proxy for the developer holding.  This definition follows the
spec words, not the source; it exists only for comparison. -/
def devPercentSpecContract (creator : Option String) (holdersList : List HolderE)
    (total : Int) : ℚ :=
  let fallback :=
    match holdersList.head? with
    | some top => percentBigInt top.balance total
    | none => 0
  match creator with
  | some c =>
    match holdersList.find? (fun h => jsToLower h.address == jsToLower c) with
    | some found => percentBigInt found.balance total
    | none => fallback
  | none => fallback

/-- A largest-accounts entry as used by variant-2 computeDevHoldPercent:
the account address and its amount as a JavaScript number. -/
structure AccountV2 where
  address : String
  amount : ℚ
deriving DecidableEq, Repr

/-- The account-selection logic of variant-2 computeDevHoldPercent (lines
289-305): with a candidate dev address, the matching account if one exists,
otherwise the largest account; none when the list is empty.  The percentage
itself is computed there in floating point and is not modelled; claims
settled against this definition concern only which balance is selected. -/
def devHoldSelectedBalance (largestAccounts : List AccountV2)
    (candidateDevAddress : Option String) : Option ℚ :=
  match candidateDevAddress with
  | some d =>
    match largestAccounts.find? (fun a => a.address == d) with
    | some m => some m.amount
    | none =>
      match largestAccounts.head? with
      | some topItem => some topItem.amount
      | none => none
  | none =>
    match largestAccounts.head? with
    | some topItem => some topItem.amount
    | none => none

/-- The variant-3 filter (lines 980-991) with its hard-coded thresholds.
marketCap, holdersCount and vol24h are tested for JavaScript truthiness
first, so null and 0 both fail those conjuncts; top10Percent and devPercent
are always numbers at this point in the source. -/
def filterEvent (marketCap : Option ℚ) (holdersCount : Nat)
    (top10Percent devPercent : ℚ) (vol24h : Option ℚ) : Bool :=
  (match marketCap with
   | some v => !(decide (v = 0)) && decide (15000 ≤ v)
   | none => false) &&
  (!(decide (holdersCount = 0)) && decide (30 ≤ holdersCount)) &&
  decide (top10Percent < 20) &&
  decide (devPercent < 3) &&
  (match vol24h with
   | some v => !(decide (v = 0)) && decide (0 < v)
   | none => false)

/-- Token metadata as returned by fetchTokenMetadata: the total supply
already parsed from its string (the sanitizing parse of lines 929-935 is
collapsed into the parsed integer), none when absent. -/
structure MetaE where
  totalSupply : Option Int

/-- The two shapes fetchTokenHolders can return (lines 804-816): a plain
array, or an object carrying an explicit total and the holder list. -/
inductive HoldersRaw where
  | arr (hs : List HolderE)
  | obj (total : Nat) (holders : List HolderE)

/-- Market data as returned by fetchTokenMarketData. -/
structure MarketE where
  marketCap : Option ℚ
  volume24h : Option ℚ

/-- One token event for variant-3 processTokenEvent together with the
results of all its external calls. -/
structure EventInput where
  chain : Option String
  address : Option String
  creator : Option String
  dedupeRead : Except String (Option String)
  meta : Option MetaE
  holdersRaw : Option HoldersRaw
  market : MarketE

/-- The decision processTokenEvent reaches for one event. -/
inductive EventOutcome where
  | noAddress
  | alreadyProcessed
  | noMetadata
  | noHolders
  | zeroSupply
  | rejected (top10Percent devPercent : ℚ)
  | notified (top10Percent devPercent : ℚ)
deriving DecidableEq, Repr

/-- The dedupe gate of processTokenEvent (lines 882-890): a truthy stored
value short-circuits the event; a Redis error is logged and processing
continues.  Result components: skip the event, an error was logged. -/
def eventDedupGate (read : Except String (Option String)) : Bool × Bool :=
  match read with
  | .ok (some v) => (!(decide (v = "")), false)
  | .ok none => (false, false)
  | .error _ => (false, true)

/-- Variant-3 processTokenEvent (lines 874-1024) as a function from the
token event and the results of its external calls to the decision reached.
The redis mark written after each decision is given by eventOutcomeTtl. -/
def processTokenEvent (inp : EventInput) : EventOutcome :=
  match truthyStr inp.address with
  | none => .noAddress
  | some _addr =>
    if (eventDedupGate inp.dedupeRead).1 then .alreadyProcessed
    else
      match inp.meta with
      | none => .noMetadata
      | some meta =>
        match inp.holdersRaw with
        | none => .noHolders
        | some hr =>
          let holdersList :=
            match hr with
            | .arr hs => hs
            | .obj _ hs => hs.take 200
          let holdersCount0 :=
            match hr with
            | .arr hs => hs.length
            | .obj total hs => if total = 0 then hs.length else total
          let topSum := ((holdersList.take 10).map (fun h => h.balance)).sum
          let totalSupplyBig := meta.totalSupply.getD 0
          if totalSupplyBig = 0 then .zeroSupply
          else
            let top10Percent := percentBigInt topSum totalSupplyBig
            let devPercent := devPercentOf (truthyStr inp.creator) holdersList totalSupplyBig
            let holdersCount := if holdersCount0 = 0 then holdersList.length else holdersCount0
            let marketCap := orNullQ inp.market.marketCap
            let vol24h := orNullQ inp.market.volume24h
            if filterEvent marketCap holdersCount top10Percent devPercent vol24h
            then .notified top10Percent devPercent
            else .rejected top10Percent devPercent

/-- The redis mark written after each decision (lines 896, 917, 940, 996
and 1017): the TTL in seconds, none when no mark is written. -/
def eventOutcomeTtl (o : EventOutcome) : Option Nat :=
  match o with
  | .noAddress => none
  | .alreadyProcessed => none
  | .noMetadata => some (60 * 20)
  | .noHolders => some (60 * 60)
  | .zeroSupply => some (60 * 60)
  | .rejected _ _ => some (60 * 60 * 6)
  | .notified _ _ => some (60 * 60 * 24)

/-- A concrete variant-2 token whose inline metrics pass every default
threshold, used in the dispatch scenarios. -/
def tokSample : Token2 :=
  { address := some "tokenaddr1", mint := none, token := none,
    marketcap := some 20000, mc := none, holders := some 50,
    holder_count := none, top10_percent := some 15, top10 := none,
    dev_hold := some 1, dev_hold_percent := none, creator_hold := none,
    volume_24h := some 500, volume := none, creator := none, dev := none }

/-- A variant-2 token with no identifier fields at all. -/
def tokNoAddress : Token2 :=
  { address := none, mint := none, token := none,
    marketcap := some 20000, mc := none, holders := some 50,
    holder_count := none, top10_percent := some 15, top10 := none,
    dev_hold := some 1, dev_hold_percent := none, creator_hold := none,
    volume_24h := some 500, volume := none, creator := none, dev := none }

/-- An environment with no fallback providers configured. -/
def envNone : Env2 := ⟨false, false, none, none, none, false, none, none⟩

/-- A variant-1 token with an absent marketcap whose remaining metrics
pass every check. -/
def noMcTok : Tok1 := ⟨"cafe1", none, some 50, some 15, some 1, some 500⟩

/-- A metrics bundle with volume present and equal to zero and every other
metric passing its default threshold. -/
def zeroVolMetrics : Metrics := ⟨some 20000, some 50, some 15, some 1, some 0⟩

/-- A holder list containing a single whale holding half the supply. -/
def whaleHolders : List HolderE := [⟨"whaleaddr", 50⟩]

/-- A concrete event whose metadata reports a zero total supply. -/
def evtZeroSupply : EventInput :=
  { chain := none
    address := some "a"
    creator := none
    dedupeRead := .ok none
    meta := some ⟨some 0⟩
    holdersRaw := some (.arr [])
    market := ⟨none, none⟩ }

/-- A concrete event whose dedupe read fails with a Redis error. -/
def evtLedgerError : EventInput :=
  { chain := none
    address := some "a"
    creator := none
    dedupeRead := .error "boom"
    meta := none
    holdersRaw := none
    market := ⟨none, none⟩ }

/-- The same event with an unclaimed key instead of the failing read. -/
def evtUnclaimed : EventInput :=
  { chain := none
    address := some "a"
    creator := none
    dedupeRead := .ok none
    meta := none
    holdersRaw := none
    market := ⟨none, none⟩ }

/-- A concrete event with no address identifier. -/
def evtNoAddress : EventInput :=
  { chain := none
    address := none
    creator := none
    dedupeRead := .ok none
    meta := none
    holdersRaw := none
    market := ⟨none, none⟩ }

/-- Floor of a quotient of integer casts is Euclidean integer division,
for a positive denominator. -/
lemma floor_intCast_div_intCast_pos (n t : Int) (ht : 0 < t) :
    ⌊(n : ℚ) / (t : ℚ)⌋ = n / t := by
  obtain ⟨m, rfl⟩ : ∃ m : ℕ, t = (m : Int) := ⟨t.toNat, (Int.toNat_of_nonneg ht.le).symm⟩
  exact_mod_cast Rat.floor_intCast_div_natCast n m

/-- A key already seen stays seen across one loop iteration, and the
iteration adds no evaluation of it. -/
lemma pollStep1_of_seen {st : P1State} {t : Tok1} {k : String} (h : k ∈ st.seen) :
    k ∈ (pollStep1 st t).seen ∧
    ((pollStep1 st t).evaluated).count k = st.evaluated.count k := by
  unfold pollStep1
  by_cases hc : "seen:" ++ t.address ∈ st.seen
  · simp [hc, h]
  · have hne : ¬ ("seen:" ++ t.address = k) := fun he => hc (he ▸ h)
    by_cases hf : filter1pass t <;>
      simp [hc, hf, h, List.count_append, hne, List.count_cons, Ne.symm hne]

/-- Once a key is in the seen set, the rest of the batch never evaluates
it again. -/
lemma pollOnce1_count_of_seen (batch : List Tok1) (st : P1State) (k : String)
    (h : k ∈ st.seen) :
    ((pollOnce1 batch st).evaluated).count k = st.evaluated.count k := by
  induction batch generalizing st with
  | nil => rfl
  | cons t rest ih =>
    show ((pollOnce1 rest (pollStep1 st t)).evaluated).count k = _
    rw [ih (pollStep1 st t) (pollStep1_of_seen h).1, (pollStep1_of_seen h).2]

/-- One batch adds at most one evaluation per dedupe key. -/
lemma pollOnce1_count_le (batch : List Tok1) (st : P1State) (k : String) :
    ((pollOnce1 batch st).evaluated).count k ≤ st.evaluated.count k + 1 := by
  induction batch generalizing st with
  | nil => exact Nat.le_succ _
  | cons t rest ih =>
    show ((pollOnce1 rest (pollStep1 st t)).evaluated).count k ≤ _
    by_cases hc : "seen:" ++ t.address ∈ st.seen
    · have he : pollStep1 st t = st := by
        unfold pollStep1; simp [hc]
      rw [he]; exact ih st
    · by_cases hk : "seen:" ++ t.address = k
      · subst hk
        have hmem : "seen:" ++ t.address ∈ (pollStep1 st t).seen := by
          unfold pollStep1
          by_cases hf : filter1pass t <;> simp [hc, hf]
        rw [pollOnce1_count_of_seen rest _ _ hmem]
        have hcnt : ((pollStep1 st t).evaluated).count ("seen:" ++ t.address)
            = st.evaluated.count ("seen:" ++ t.address) + 1 := by
          unfold pollStep1
          by_cases hf : filter1pass t <;> simp [hc, hf, List.count_append]
        omega
      · have hcnt : ((pollStep1 st t).evaluated).count k = st.evaluated.count k := by
          unfold pollStep1
          by_cases hf : filter1pass t <;>
            simp [hc, hf, List.count_append, hk, List.count_cons, Ne.symm hk]
        calc ((pollOnce1 rest (pollStep1 st t)).evaluated).count k
            ≤ ((pollStep1 st t).evaluated).count k + 1 := ih _
          _ = st.evaluated.count k + 1 := by rw [hcnt]

/-- C3 counterexample: the share computation of the cited
computeTop10PercentViaHelius at sumTop 2, supply 3 yields 66.6667 - a
four-decimal round-half-up of the floating-point share - while the claimed
contract floor(amount * 10000 / total) / 100 yields the truncated
two-decimal value 66.66; the universal exact, never-floating-point claim
is false for this cited implementation. -/
theorem top10_float_rounding_counterexample :
    top10PercentViaHelius 2 3 = some (666667/10000) ∧
    sharePercentSpec 2 3 = some (6666/100) ∧
    top10PercentViaHelius 2 3 ≠ some (6666/100) := by
  have hf : (⌊((2 : ℚ) / 3 * 100) * 10000 + 1/2⌋ : ℤ) = 666667 := by
    rw [Int.floor_eq_iff]
    constructor <;> norm_num
  have hg : (⌊((2 : ℚ) * 10000) / 3⌋ : ℤ) = 6666 := by
    rw [Int.floor_eq_iff]
    constructor <;> norm_num
  have h1 : top10PercentViaHelius 2 3 = some (666667/10000) := by
    unfold top10PercentViaHelius toFixed4
    rw [if_neg (by norm_num), hf]
    norm_num
  have h2 : sharePercentSpec 2 3 = some (6666/100) := by
    unfold sharePercentSpec
    rw [if_neg (by norm_num)]
    push_cast
    rw [hg]
    norm_num
  refine ⟨h1, h2, ?_⟩
  rw [h1]
  intro hx
  have := Option.some.inj hx
  norm_num at this

/-- C3 (amended): percentBigInt computes its scaled integer exactly: for
non-negative amount and positive total the BigInt value
(amount * 10000) / total equals floor(amount * 10000 / total), the
truncation toward zero coinciding with the floor, and the value
percentBigInt returns is that integer divided by 100 - this division being
the one step the source performs in floating point; the cited
computeTop10PercentViaHelius does not implement the integer contract: it
rounds the float share half-up at the fourth decimal, staying only within
1/20000 of the unrounded share. -/
theorem percentBigInt_scaled_exact (amount total : Int)
    (h1 : 0 ≤ amount) (h2 : 0 < total) :
    percentScaled amount total = ⌊((amount : ℚ) * 10000) / (total : ℚ)⌋ ∧
    percentBigInt amount total = ((percentScaled amount total : Int) : ℚ) / 100 ∧
    (∀ x : ℚ, |toFixed4 x - x| ≤ 1/20000) := by
  refine ⟨?_, ?_, ?_⟩
  · unfold percentScaled
    rw [if_neg h2.ne', Int.tdiv_eq_ediv (by positivity) h2.le,
        ← floor_intCast_div_intCast_pos (amount * 10000) total h2]
    congr 1
    push_cast
    ring
  · unfold percentBigInt percentScaled
    rw [if_neg h2.ne', if_neg h2.ne']
  · intro x
    have hle : (⌊x * 10000 + 1/2⌋ : ℚ) ≤ x * 10000 + 1/2 := Int.floor_le _
    have hlt : x * 10000 + 1/2 < (⌊x * 10000 + 1/2⌋ : ℚ) + 1 := Int.lt_floor_add_one _
    unfold toFixed4
    rw [abs_le]
    constructor <;> linarith

/-- Witness for percentBigInt_scaled_exact at amount 1, total 3 and the
rounding bound at 2/3. -/
theorem percentBigInt_scaled_exact_witness :
    percentScaled 1 3 = ⌊(((1 : Int) : ℚ) * 10000) / ((3 : Int) : ℚ)⌋ ∧
    percentBigInt 1 3 = ((percentScaled 1 3 : Int) : ℚ) / 100 ∧
    |toFixed4 (2/3) - 2/3| ≤ 1/20000 := by
  have h := percentBigInt_scaled_exact 1 3 (by decide) (by decide)
  exact ⟨h.1, h.2.1, h.2.2 (2/3)⟩

/-- C8: percentBigInt is invariant under equal positive integer scaling of
amount and total. -/
theorem percentBigInt_scale (amount total k : Int)
    (h1 : 0 ≤ amount) (h2 : 0 < total) (h3 : 0 < k) :
    percentBigInt (k * amount) (k * total) = percentBigInt amount total := by
  have hkt : k * total ≠ 0 := (mul_pos h3 h2).ne'
  unfold percentBigInt
  rw [if_neg hkt, if_neg h2.ne']
  have e1 : k * amount * 10000 = k * (amount * 10000) := by ring
  rw [Int.tdiv_eq_ediv (by positivity) (mul_pos h3 h2).le,
      Int.tdiv_eq_ediv (by positivity) h2.le, e1,
      Int.mul_ediv_mul_of_pos _ _ h3]

/-- Witness for percentBigInt_scale at amount 3, total 4, factor 7. -/
theorem percentBigInt_scale_witness :
    percentBigInt (7 * 3) (7 * 4) = percentBigInt 3 4 :=
  percentBigInt_scale 3 4 7 (by decide) (by decide) (by decide)

/-- C6 counterexample: for total = 0 percentBigInt returns the number 0 and
for a negative total it returns the truncated quotient, while the spec
contract sharePercentSpec is absent at both inputs; the claim that the
code returns an absent value for total ≤ 0 is false. -/
theorem percentBigInt_zero_total_counterexample :
    percentBigInt 1 0 = 0 ∧ percentBigInt 1 (-3) = -3333/100 ∧
    sharePercentSpec 1 0 = none ∧ sharePercentSpec 1 (-3) = none := by
  refine ⟨rfl, ?_, rfl, rfl⟩
  unfold percentBigInt
  have ht : Int.tdiv (1 * 10000) (-3) = -3333 := by decide
  rw [if_neg (by decide), ht]
  norm_num

/-- C6 (amended): percentBigInt returns the number 0, never an absent
value, for a zero denominator; and processTokenEvent guards a zero or
missing total supply by skipping the token with a short-TTL mark, so
percentBigInt never feeds the filter on a non-positive total there. -/
theorem percentBigInt_zero_total_amended :
    (∀ n : Int, percentBigInt n 0 = 0) ∧
    (∀ inp : EventInput,
        (match inp.meta with
         | some m => m.totalSupply.getD 0 = 0
         | none => True) →
        ∀ t10 dev : ℚ, processTokenEvent inp ≠ .rejected t10 dev ∧
                       processTokenEvent inp ≠ .notified t10 dev) := by
  constructor
  · intro n; unfold percentBigInt; simp
  · intro inp hm t10 dev
    obtain ⟨chain, address, creator, dedupeRead, meta, holdersRaw, market⟩ := inp
    unfold processTokenEvent
    cases haddr : truthyStr address with
    | none => exact ⟨by simp, by simp⟩
    | some a =>
      by_cases hg : (eventDedupGate dedupeRead).1
      · simp [hg]
      · cases meta with
        | none => simp [hg]
        | some m =>
          cases holdersRaw with
          | none => simp [hg]
          | some hr =>
            have hm0 : m.totalSupply.getD 0 = 0 := hm
            simp [hg, hm0]

/-- Witness for percentBigInt_zero_total_amended. -/
theorem percentBigInt_zero_total_amended_witness :
    percentBigInt 5 0 = 0 ∧
    processTokenEvent evtZeroSupply ≠ .rejected 0 0 := by
  have h := percentBigInt_zero_total_amended
  exact ⟨h.1 5, (h.2 evtZeroSupply (by rfl) 0 0).1⟩

/-- C1: the in-memory markProcessed is the atomic tryClaim of the spec: it
creates the ledger entry exactly when the key does not already exist and
returns true exactly when creation succeeded; a failed claim leaves the
ledger unchanged; a successful claim survives any expiry sweep inside its
TTL window, so a second claim for the same key fails there; and the
variant-1 polling loop evaluates each dedupe key at most once per batch, a
duplicated token being evaluated exactly once. -/
theorem markProcessed_tryClaim_semantics :
    (∀ (mem : List (String × Nat)) (a : String) (now : Nat),
        ((markProcessedMem mem a now).1 = true ↔ wasProcessedMem mem a = false)) ∧
    (∀ (mem : List (String × Nat)) (a : String) (now : Nat),
        (markProcessedMem mem a now).1 = true →
          wasProcessedMem (markProcessedMem mem a now).2 a = true) ∧
    (∀ (mem : List (String × Nat)) (a : String) (now : Nat),
        (markProcessedMem mem a now).1 = false →
          (markProcessedMem mem a now).2 = mem) ∧
    (∀ (mem : List (String × Nat)) (a : String) (t1 t2 ttl : Nat),
        (markProcessedMem mem a t1).1 = true → t2 - t1 ≤ ttl →
          (markProcessedMem (sweepMem ttl t2 (markProcessedMem mem a t1).2) a t2).1
            = false) ∧
    (∀ t : Tok1, (pollOnce1 [t, t] ⟨[], [], []⟩).evaluated = ["seen:" ++ t.address]) ∧
    (∀ (batch : List Tok1) (k : String),
        ((pollOnce1 batch ⟨[], [], []⟩).evaluated).count k ≤ 1) := by
  refine ⟨?_, ?_, ?_, ?_, ?_, ?_⟩
  · intro mem a now
    by_cases h : mem.any (fun e => e.1 == "processed:" ++ a) <;>
      simp [markProcessedMem, wasProcessedMem, h]
  · intro mem a now ht
    by_cases h : mem.any (fun e => e.1 == "processed:" ++ a)
    · simp [markProcessedMem, h] at ht
    · simp [markProcessedMem, wasProcessedMem, h]
  · intro mem a now hf
    by_cases h : mem.any (fun e => e.1 == "processed:" ++ a)
    · simp [markProcessedMem, h]
    · simp [markProcessedMem, h] at hf
  · intro mem a t1 t2 ttl h hle
    by_cases hc : mem.any (fun e => e.1 == "processed:" ++ a)
    · simp [markProcessedMem, hc] at h
    · have hmark : (markProcessedMem mem a t1).2 = ("processed:" ++ a, t1) :: mem := by
        simp [markProcessedMem, hc]
      have hkeep : sweepMem ttl t2 (("processed:" ++ a, t1) :: mem)
          = ("processed:" ++ a, t1) :: sweepMem ttl t2 mem := by
        unfold sweepMem
        rw [List.filter_cons_of_pos]
        simp
        omega
      rw [hmark, hkeep]
      simp [markProcessedMem]
  · intro t
    unfold pollOnce1 pollStep1
    by_cases hf : filter1pass t <;> simp [hf]
  · intro batch k
    simpa using pollOnce1_count_le batch ⟨[], [], []⟩ k

/-- Witness for markProcessed_tryClaim_semantics. -/
theorem markProcessed_tryClaim_semantics_witness :
    (markProcessedMem [] "abc" 5).1 = true ∧
    wasProcessedMem (markProcessedMem [] "abc" 5).2 "abc" = true ∧
    (markProcessedMem (sweepMem 3600 100 (markProcessedMem [] "abc" 5).2) "abc" 100).1
      = false ∧
    ((pollOnce1 [⟨"dup", none, none, none, none, none⟩,
                 ⟨"dup", none, none, none, none, none⟩] ⟨[], [], []⟩).evaluated).count
      "seen:dup" ≤ 1 := by
  have h := markProcessed_tryClaim_semantics
  exact ⟨(h.1 [] "abc" 5).mpr (by decide),
         h.2.1 [] "abc" 5 (by decide),
         h.2.2.2.1 [] "abc" 5 100 3600 (by decide) (by decide),
         h.2.2.2.2.2 _ _⟩

/-- C2 counterexample: a candidate passing every filter whose Telegram
delivery attempt fails is still marked processed with the long dedupe TTL;
the processed mark is not withheld on delivery failure. -/
theorem dispatch_failure_still_marked_counterexample :
    (processToken2 defaultCfg envNone false 0 tokSample ⟨[], []⟩).sent
        = [("tokenaddr1", false)] ∧
    wasProcessedMem (processToken2 defaultCfg envNone false 0 tokSample ⟨[], []⟩).ledger
        "tokenaddr1" = true := by
  constructor <;> decide

/-- C2 (amended): for every candidate whose resolved metrics pass the
filter, processToken writes the durable processed mark regardless of the
delivery outcome; sendTelegramMessage swallows its own errors, so a failed
delivery is recorded but never withholds the mark and is not retried. -/
theorem passing_token_marked_regardless (cfg : FilterCfg) (env : Env2)
    (deliveryOk : Bool) (now : Nat) (t : Token2) (st : PState2) (a : String)
    (h1 : tokenAddress t = some a)
    (h2 : wasProcessedMem st.ledger a = false)
    (h3 : passedFilter cfg (resolveMetrics env t) = true) :
    wasProcessedMem (processToken2 cfg env deliveryOk now t st).ledger a = true ∧
    (processToken2 cfg env deliveryOk now t st).sent = st.sent ++ [(a, deliveryOk)] := by
  unfold processToken2
  rw [h1]
  have hmem : st.ledger.any (fun e => e.1 == "processed:" ++ a) = false := h2
  simp [h2, h3, markProcessedMem, wasProcessedMem, hmem]

/-- Witness for passing_token_marked_regardless with a failed delivery. -/
theorem passing_token_marked_regardless_witness :
    wasProcessedMem (processToken2 defaultCfg envNone false 7 tokSample ⟨[], []⟩).ledger
        "tokenaddr1" = true ∧
    (processToken2 defaultCfg envNone false 7 tokSample ⟨[], []⟩).sent
        = [("tokenaddr1", false)] := by
  have h := passing_token_marked_regardless defaultCfg envNone false 7 tokSample
      ⟨[], []⟩ "tokenaddr1" (by decide) (by decide) (by decide)
  exact ⟨h.1, h.2⟩

/-- C4 counterexample: in the variant-1 filter a token with an absent
marketcap and all other metrics qualifying passes and is sent; an absent
metric does not force failure there, and no missingMetrics set exists
anywhere in the source. -/
theorem absent_metric_passes_counterexample :
    noMcTok.marketcap = none ∧ filter1pass noMcTok = true ∧
    (pollOnce1 [noMcTok] ⟨[], [], []⟩).sent = ["cafe1"] := by
  refine ⟨rfl, by decide, by decide⟩

/-- C4 (amended): in the variant-2 filter any absent metric forces failure;
in the variant-1 filter an absent volume forces failure, but absence of the
other four metrics passes their checks (undefined comparisons are false in
JavaScript), so a token missing all four still passes on positive volume;
no missingMetrics set is recorded anywhere, only log lines. -/
theorem absent_metric_filter_behavior :
    (∀ (cfg : FilterCfg) (m : Metrics),
        m.marketcap = none ∨ m.holders = none ∨ m.top10Percent = none ∨
          m.devPercent = none ∨ m.volume24h = none →
        passedFilter cfg m = false) ∧
    (∀ t : Tok1, t.volume_24h = none → filter1pass t = false) ∧
    (∀ (a : String) (v : ℚ), 0 < v →
        filter1pass ⟨a, none, none, none, none, some v⟩ = true) := by
  refine ⟨?_, ?_, ?_⟩
  · rintro cfg m (h | h | h | h | h) <;> simp [passedFilter, h]
  · intro t h
    unfold filter1pass
    rw [h]
    simp
  · intro a v hv
    simp [filter1pass, jsLt, jsGt, hv]

/-- Witness for absent_metric_filter_behavior. -/
theorem absent_metric_filter_behavior_witness :
    passedFilter defaultCfg ⟨none, some 50, some 15, some 1, some 500⟩ = false ∧
    filter1pass ⟨"w", some 20000, some 50, some 15, some 1, none⟩ = false ∧
    filter1pass ⟨"w", none, none, none, none, some 7⟩ = true := by
  have h := absent_metric_filter_behavior
  exact ⟨h.1 defaultCfg _ (Or.inl rfl), h.2.1 _ rfl, h.2.2 "w" 7 (by decide)⟩

/-- C5 counterexample: a metrics bundle with volume present and equal to 0
passes the variant-2 filter, whose volume conjunct tests only presence; the
claim that the filter always fails on zero volume is false for it. -/
theorem zero_volume_passes_counterexample :
    zeroVolMetrics.volume24h = some 0 ∧
    passedFilter defaultCfg zeroVolMetrics = true := by
  constructor <;> decide

/-- C5 (amended): a present zero volume fails the strict variant-1 and
variant-3 filters, while the variant-2 filter tests volume only for
presence, so its outcome is independent of the volume value. -/
theorem zero_volume_filter_behavior :
    (∀ t : Tok1, t.volume_24h = some 0 → filter1pass t = false) ∧
    (∀ (mc : Option ℚ) (hc : Nat) (t10 dev : ℚ),
        filterEvent mc hc t10 dev (some 0) = false) ∧
    (∀ (cfg : FilterCfg) (m : Metrics) (v w : ℚ),
        passedFilter cfg { m with volume24h := some v }
          = passedFilter cfg { m with volume24h := some w }) := by
  refine ⟨?_, ?_, ?_⟩
  · intro t h
    unfold filter1pass
    rw [h]
    simp
  · intro mc hc t10 dev
    simp [filterEvent]
  · intro cfg m v w
    simp [passedFilter]

/-- Witness for zero_volume_filter_behavior. -/
theorem zero_volume_filter_behavior_witness :
    filter1pass ⟨"z", some 20000, some 50, some 15, some 1, some 0⟩ = false ∧
    filterEvent (some 20000) 50 15 1 (some 0) = false ∧
    passedFilter defaultCfg { zeroVolMetrics with volume24h := some 1 }
      = passedFilter defaultCfg { zeroVolMetrics with volume24h := some 2 } := by
  have h := zero_volume_filter_behavior
  exact ⟨h.1 _ rfl, h.2.1 _ _ _ _, h.2.2 _ _ 1 2⟩

/-- C7 counterexample: with a known creator that is absent from the holder
list, processTokenEvent yields devPercent 0 and does NOT fall back to the
largest holder, while the spec devPercent contract yields the largest
holder share 50; the unconditional-fallback claim is false. -/
theorem creator_absent_no_fallback_counterexample :
    devPercentOf (some "devaddr") whaleHolders 100 = 0 ∧
    devPercentSpecContract (some "devaddr") whaleHolders 100 = 50 ∧
    percentBigInt 50 100 = 50 := by
  have hp : percentBigInt 50 100 = 50 := by
    unfold percentBigInt
    have ht : Int.tdiv (50 * 10000) 100 = 5000 := by decide
    rw [if_neg (by decide), ht]
    norm_num
  have hspec : devPercentSpecContract (some "devaddr") whaleHolders 100
      = percentBigInt 50 100 := rfl
  exact ⟨rfl, by rw [hspec, hp], hp⟩

/-- C7 (amended): when the creator is known and present among the holders,
devPercent is the creator share; when no creator is provided, it falls back
to the largest holder; but when a known creator is absent from the holder
list, processTokenEvent yields 0 with no fallback - only the variant-2
computeDevHoldPercent falls back to the largest account in that case. -/
theorem devPercent_fallback_behavior :
    (∀ (c : String) (hs : List HolderE) (total : Int) (h : HolderE),
        hs.find? (fun x => jsToLower x.address == jsToLower c) = some h →
        devPercentOf (some c) hs total = percentBigInt h.balance total) ∧
    (∀ (c : String) (hs : List HolderE) (total : Int),
        hs.find? (fun x => jsToLower x.address == jsToLower c) = none →
        devPercentOf (some c) hs total = 0) ∧
    (∀ (hs : List HolderE) (total : Int) (h : HolderE), hs.head? = some h →
        devPercentOf none hs total = percentBigInt h.balance total) ∧
    (∀ (accts : List AccountV2) (d : String) (top : AccountV2),
        accts.find? (fun a => a.address == d) = none → accts.head? = some top →
        devHoldSelectedBalance accts (some d) = some top.amount) := by
  refine ⟨?_, ?_, ?_, ?_⟩
  · intro c hs total h hf
    simp [devPercentOf, hf]
  · intro c hs total hf
    simp [devPercentOf, hf]
  · intro hs total h hh
    simp [devPercentOf, hh]
  · intro accts d top hf hh
    simp [devHoldSelectedBalance, hf, hh]

/-- Witness for devPercent_fallback_behavior. -/
theorem devPercent_fallback_behavior_witness :
    devPercentOf (some "whaleaddr") whaleHolders 100 = percentBigInt 50 100 ∧
    devPercentOf (some "devaddr") whaleHolders 100 = 0 ∧
    devPercentOf none whaleHolders 100 = percentBigInt 50 100 ∧
    devHoldSelectedBalance [⟨"acct1", 7⟩] (some "devaddr") = some 7 := by
  have h := devPercent_fallback_behavior
  exact ⟨h.1 "whaleaddr" whaleHolders 100 ⟨"whaleaddr", 50⟩ (by decide),
         h.2.1 "devaddr" whaleHolders 100 (by decide),
         h.2.2.1 whaleHolders 100 ⟨"whaleaddr", 50⟩ (by decide),
         h.2.2.2 [⟨"acct1", 7⟩] "devaddr" ⟨"acct1", 7⟩ (by decide) (by decide)⟩

/-- C9: when the dedupe read errors, both pipelines treat the token as
unclaimed and log the failure: the variant-2 wasProcessed returns not
processed with a logged error, the variant-3 gate does not skip and logs,
and processTokenEvent reaches exactly the decision it would reach on an
unclaimed key. -/
theorem ledger_error_fail_open :
    (∀ e : String, wasProcessedRedis (.error e) = (false, true)) ∧
    (∀ e : String, eventDedupGate (.error e) = (false, true)) ∧
    (∀ (inp : EventInput) (e : String), inp.dedupeRead = .error e →
        processTokenEvent inp
          = processTokenEvent { inp with dedupeRead := .ok none }) := by
  refine ⟨fun e => rfl, fun e => rfl, ?_⟩
  intro inp e h
  obtain ⟨chain, address, creator, dedupeRead, meta, holdersRaw, market⟩ := inp
  cases h
  rfl

/-- Witness for ledger_error_fail_open. -/
theorem ledger_error_fail_open_witness :
    wasProcessedRedis (.error "boom") = (false, true) ∧
    eventDedupGate (.error "boom") = (false, true) ∧
    processTokenEvent evtLedgerError = processTokenEvent evtUnclaimed := by
  have h := ledger_error_fail_open
  exact ⟨h.1 "boom", h.2.1 "boom", h.2.2 evtLedgerError "boom" rfl⟩

/-- C10: a candidate with no address, mint or token identifier makes
processToken return immediately with the pipeline state unchanged (no
ledger write, no dispatch), and makes processTokenEvent reach the
no-address decision, which writes no ledger mark. -/
theorem missing_address_no_effect :
    (∀ (cfg : FilterCfg) (env : Env2) (deliveryOk : Bool) (now : Nat)
        (t : Token2) (st : PState2),
        tokenAddress t = none → processToken2 cfg env deliveryOk now t st = st) ∧
    (∀ inp : EventInput, truthyStr inp.address = none →
        processTokenEvent inp = .noAddress ∧
        eventOutcomeTtl (processTokenEvent inp) = none) := by
  constructor
  · intro cfg env ok now t st h
    unfold processToken2
    rw [h]
  · intro inp h
    have hout : processTokenEvent inp = .noAddress := by
      unfold processTokenEvent
      rw [h]
    exact ⟨hout, by rw [hout]; rfl⟩

/-- Witness for missing_address_no_effect. -/
theorem missing_address_no_effect_witness :
    processToken2 defaultCfg envNone true 0 tokNoAddress ⟨[], []⟩ = ⟨[], []⟩ ∧
    processTokenEvent evtNoAddress = .noAddress := by
  have h := missing_address_no_effect
  exact ⟨h.1 defaultCfg envNone true 0 tokNoAddress ⟨[], []⟩ rfl, (h.2 evtNoAddress rfl).1⟩

end PumpBot
